import Mathlib

/-!
# Verification of the CoScale Kubernetes autoscaler

A shallow embedding of `src/autoscaler.py`.  Times and metric values are
modelled as rationals, replica counts as integers.  The external world
(the CoScale CLI metric fetch and the Kubernetes orchestrator calls) is
passed in explicitly as an `Env`; each call site may succeed or raise.
`Scaler.run` returns a `RunOutcome` recording the new mutable state
together with the externally observable effects of the tick: whether the
metric fetch was attempted, how many replica reads took place, which
replica counts were written, and whether the run raised an exception.
-/

/-- One window of metric data as returned by the CLI `data get` call:
a list of `(timestamp, value)` pairs (the `values` field). -/
structure Window where
  values : List (ℚ × ℚ)
deriving DecidableEq, Repr

/-- The per-target configuration fields of `Scaler.__init__`
(`low_value`, `high_value`, `avg_interval`, `backoff`, `min_replicas`,
`max_replicas`). -/
structure Scaler where
  low_value : ℚ
  high_value : ℚ
  avg_interval : ℤ
  backoff : ℤ
  min_replicas : ℤ
  max_replicas : ℤ
deriving DecidableEq, Repr

/-- The mutable per-target state: `self.last_scaling`, initialised to 0. -/
structure ScalerState where
  last_scaling : ℚ
deriving DecidableEq, Repr

/-- The external world for one `Scaler.run` tick.
`metricData` is the result of `cli.get_metric_data` (error = the CLI
subprocess raised); `replicas` the result of
`read_namespaced_deployment_scale`; `writeOk` whether
`replace_namespaced_deployment_scale` would succeed; `scaleTime` the value
`time.time()` returns at line 143 (the second clock reading, taken inside
`scale` after the write). -/
structure Env where
  metricData : Except Unit (List Window)
  replicas : Except Unit ℤ
  writeOk : Bool
  scaleTime : ℚ
deriving Repr

/-- The observable outcome of one `Scaler.run` tick. -/
structure RunOutcome where
  state : ScalerState
  fetched : Bool
  reads : ℕ
  writes : List ℤ
  raised : Bool
deriving DecidableEq, Repr

/-- `Scaler.metric_value`, lines 112–123: given the list of windows the
CLI returned, yield the arithmetic mean of the single window's values,
or `none` when the shape is wrong (`len(metric_data) != 1`) or the window
is empty (`len(pairs) == 0`). -/
def metricValue (metric_data : List Window) : Option ℚ :=
  if metric_data.length ≠ 1 then none
  else
    match metric_data with
    | [w] =>
      if w.values.length = 0 then none
      else some (((w.values.map (fun p => p.2)).sum) / (w.values.length : ℚ))
    | _ => none

/-- `Scaler.scale`, lines 131–143: attempt the replace-scale write; on
success `last_scaling` becomes the current clock reading
(`env.scaleTime`); on failure the exception propagates and the state is
untouched.  Returns (new state, raised). -/
def Scaler.scale (st : ScalerState) (env : Env) : ScalerState × Bool :=
  if env.writeOk then (⟨env.scaleTime⟩, false) else (st, true)

/-- `Scaler.run`, lines 86–110, with the helpers `metric_value`
(lines 112–123), `current_replicas` (lines 125–129) and `scale`
(lines 131–143) inlined at their call sites.  `now` is the value
`time.time()` returns at line 88. -/
def Scaler.run (c : Scaler) (st : ScalerState) (now : ℚ) (env : Env) : RunOutcome :=
  if st.last_scaling + (c.backoff : ℚ) < now then
    match env.metricData with
    | .error _ => ⟨st, true, 0, [], true⟩
    | .ok md =>
      match metricValue md with
      | none => ⟨st, true, 0, [], false⟩
      | some current_value =>
        if current_value < c.low_value then
          match env.replicas with
          | .error _ => ⟨st, true, 1, [], true⟩
          | .ok replicas =>
            if c.min_replicas < replicas then
              let r := Scaler.scale st env
              ⟨r.1, true, 1, [replicas - 1], r.2⟩
            else ⟨st, true, 1, [], false⟩
        else if c.high_value < current_value then
          match env.replicas with
          | .error _ => ⟨st, true, 1, [], true⟩
          | .ok replicas =>
            if replicas < c.max_replicas then
              let r := Scaler.scale st env
              ⟨r.1, true, 1, [replicas + 1], r.2⟩
            else ⟨st, true, 1, [], false⟩
        else ⟨st, true, 0, [], false⟩
  else ⟨st, false, 0, [], false⟩

/-- A sequence of `run` calls on the same target, threading the mutable
state: each tick supplies its clock reading and its external world. -/
def runSeq (c : Scaler) (st : ScalerState) : List (ℚ × Env) → ScalerState
  | [] => st
  | t :: rest => runSeq c (Scaler.run c st t.1 t.2).state rest

/-!
## The scheduler

`run_scalers` builds one shared `sched.scheduler()` queue and drives all
targets on it.  An `Event` is one queued `(time, priority, action)` entry of
`run_and_schedule` for a given target; all priorities are 1 and ties are
broken by entry order, so the queue is modelled as a list in insertion
order from which the earliest event is popped.
-/

/-- One entry of the shared `sched` queue: the absolute time the event is
due and the index of the target whose `run_and_schedule` it will call. -/
structure Event where
  time : ℚ
  idx : ℕ
deriving DecidableEq, Repr

/-- `scheduler.enter(interval, 1, run_and_schedule, ...)` relative to the
current clock: append the new event, due `interval` after `now`. -/
def schedEnter (q : List Event) (now interval : ℚ) (idx : ℕ) : List Event :=
  q ++ [⟨now + interval, idx⟩]

/-- `run_and_schedule`, lines 149–156: run the scaler (`step` is the
result of `scaler.run()`, error = it raised); an exception is caught and
logged, and in both cases the `finally` block re-enters the event
`interval` seconds after the current clock (the run's completion time).
The result is `.ok` in both cases: the exception never propagates. -/
def run_and_schedule (step : Except Unit RunOutcome) (q : List Event)
    (interval completionTime : ℚ) (idx : ℕ) : Except Unit (List Event) :=
  match step with
  | .ok _ => .ok (schedEnter q completionTime interval idx)
  | .error _ => .ok (schedEnter q completionTime interval idx)

/-- What `run_scalers` (lines 159–174) needs to know about one entry of
the config list: whether `Scaler(item, cli, kubernetes_api)` raises
(metric or server group not found, lines 70–78), and, if construction
succeeds, the result of the immediate first `scaler.run()` call made by
`run_and_schedule` inside the loop. -/
structure ConfigItem where
  construction : Except Unit Unit
  firstRun : Except Unit RunOutcome

/-- The loop body of `run_scalers` for one config item at index `i`:
a construction failure is caught, logged and the item skipped; otherwise
`run_and_schedule` runs the scaler once and queues its next tick. -/
def runScalersStep (q : List Event) (interval now : ℚ) (i : ℕ)
    (item : ConfigItem) : List Event :=
  match item.construction with
  | .error _ => q
  | .ok _ =>
    match run_and_schedule item.firstRun q interval now i with
    | .ok q₂ => q₂
    | .error _ => q

/-- `run_scalers`, lines 159–174, up to the final `scheduler.run()`:
fold the loop body over the config list (items indexed by position),
producing the event queue the scheduler is started with. -/
def run_scalers (items : List ConfigItem) (interval now : ℚ) : List Event :=
  (items.enum.foldl (fun q p => runScalersStep q interval now p.1 p.2) [])

/-- Pop the earliest-due event from the queue (the `sched` heap pop;
ties go to the earlier-entered event). -/
def popMin : List Event → Option (Event × List Event)
  | [] => none
  | e :: es =>
    match popMin es with
    | none => some (e, [])
    | some (m, rest) =>
      if e.time ≤ m.time then some (e, es) else some (m, e :: rest)

/-- One iteration of `scheduler.run()` driving `run_and_schedule` events:
pop the earliest event, wait until it is due (the clock jumps to
`max clock e.time`), execute the target's `scaler.run()` — which takes
`dur e.idx` seconds — and re-enter the event `itv e.idx` seconds after
completion.  Returns the new clock, the new queue, and the execution
record `(target, start, completion)`. -/
def schedStep (dur itv : ℕ → ℚ) (clock : ℚ) (q : List Event) :
    Option (ℚ × List Event × (ℕ × ℚ × ℚ)) :=
  match popMin q with
  | none => none
  | some (e, rest) =>
    let start := if clock ≤ e.time then e.time else clock
    let completion := start + dur e.idx
    some (completion, schedEnter rest completion (itv e.idx) e.idx,
          (e.idx, start, completion))

/-- Run `n` iterations of the scheduler loop, returning the execution
trace: for each run, the target index, the clock when it started, and
the clock when it completed. -/
def schedTrace (dur itv : ℕ → ℚ) : ℕ → ℚ → List Event → List (ℕ × ℚ × ℚ)
  | 0, _, _ => []
  | n + 1, clock, q =>
    match schedStep dur itv clock q with
    | none => []
    | some (clock₂, q₂, rec) => rec :: schedTrace dur itv n clock₂ q₂

example :
    metricValue [⟨[(0, 4), (1, 6)]⟩] = some 5 := by
  norm_num [metricValue]

example : metricValue [] = none := by decide

example : metricValue [⟨[(0, 1)]⟩, ⟨[(0, 2)]⟩] = none := by decide

lemma run_backoff (c : Scaler) (st : ScalerState) (now : ℚ) (env : Env)
    (h : ¬ st.last_scaling + (c.backoff : ℚ) < now) :
    Scaler.run c st now env = ⟨st, false, 0, [], false⟩ := by
  unfold Scaler.run
  rw [if_neg h]

lemma run_fetched_of_gate (c : Scaler) (st : ScalerState) (now : ℚ) (env : Env)
    (h : st.last_scaling + (c.backoff : ℚ) < now) :
    (Scaler.run c st now env).fetched = true := by
  unfold Scaler.run Scaler.scale
  rw [if_pos h]
  repeat' split
  all_goals rfl

lemma run_write_success (c : Scaler) (st : ScalerState) (now : ℚ) (env : Env)
    (hw : (Scaler.run c st now env).writes ≠ [])
    (hr : (Scaler.run c st now env).raised = false) :
    (Scaler.run c st now env).state = ⟨env.scaleTime⟩ := by
  rcases env with ⟨md, reps, wok, stime⟩
  cases wok <;>
    unfold Scaler.run Scaler.scale at hw hr ⊢ <;>
    repeat' split at hw <;> repeat' split at hr <;> simp_all
  all_goals rw [if_neg (by simp only [not_lt]; assumption)]

lemma metricValue_none_of_bad_shape (md : List Window)
    (h : md.length ≠ 1 ∨ ∃ w, md = [w] ∧ w.values = []) :
    metricValue md = none := by
  unfold metricValue
  rcases h with h | ⟨w, rfl, hw⟩
  · rw [if_pos h]
  · simp [hw]

/-- C1 (amended): a call with `now ≤ last_scaling + backoff` logs the backoff
and returns without contacting any external system (no fetch, no read, no
write, state unchanged); whenever `now` is strictly greater than
`last_scaling + backoff` the evaluation proceeds to fetch the metric; and
after a successful scale at `now₁` (clock monotone within the tick), a
second call at `now₂ < now₁ + backoff` does not invoke the orchestrator's
write operation. -/
theorem backoff_gate_behavior :
    (∀ (c : Scaler) (st : ScalerState) (now : ℚ) (env : Env),
        now ≤ st.last_scaling + (c.backoff : ℚ) →
        Scaler.run c st now env = ⟨st, false, 0, [], false⟩) ∧
    (∀ (c : Scaler) (st : ScalerState) (now : ℚ) (env : Env),
        st.last_scaling + (c.backoff : ℚ) < now →
        (Scaler.run c st now env).fetched = true) ∧
    (∀ (c : Scaler) (st : ScalerState) (now₁ now₂ : ℚ) (env₁ env₂ : Env),
        (Scaler.run c st now₁ env₁).writes ≠ [] →
        (Scaler.run c st now₁ env₁).raised = false →
        now₁ ≤ env₁.scaleTime →
        now₂ < now₁ + (c.backoff : ℚ) →
        (Scaler.run c ((Scaler.run c st now₁ env₁).state) now₂ env₂).writes = []) := by
  refine ⟨?_, ?_, ?_⟩
  · intro c st now env h
    exact run_backoff c st now env (not_lt.mpr h)
  · intro c st now env h
    exact run_fetched_of_gate c st now env h
  · intro c st now₁ now₂ env₁ env₂ hw hr hmono h₂
    rw [run_write_success c st now₁ env₁ hw hr]
    have hb : ¬ (⟨env₁.scaleTime⟩ : ScalerState).last_scaling + (c.backoff : ℚ) < now₂ := by
      simp only [not_lt]
      calc now₂ ≤ now₁ + (c.backoff : ℚ) := le_of_lt h₂
        _ ≤ env₁.scaleTime + (c.backoff : ℚ) := by linarith
    rw [run_backoff c ⟨env₁.scaleTime⟩ now₂ env₂ hb]

/-- C1 witness: concrete backoff call (backoff 10s, last scaling at 0,
call at 5) returns the untouched state with no external contact. -/
theorem backoff_gate_behavior_witness :
    Scaler.run ⟨1, 2, 300, 10, 1, 5⟩ ⟨0⟩ 5 ⟨.ok [], .ok 1, true, 5⟩ =
      ⟨⟨0⟩, false, 0, [], false⟩ :=
  backoff_gate_behavior.1 ⟨1, 2, 300, 10, 1, 5⟩ ⟨0⟩ 5 ⟨.ok [], .ok 1, true, 5⟩
    (by norm_num)

/-- C1 counterexample: at `now = last_scaling + backoff` (so `now` is "at
least" `last_scaling + backoff`) the code's strict comparison
`time.time() > last_scaling + backoff` fails, so the evaluation does NOT
proceed to fetch the metric, refuting the claim's converse direction. -/
theorem backoff_boundary_not_fetched :
    (10 : ℚ) = (⟨0⟩ : ScalerState).last_scaling + ((10 : ℤ) : ℚ) ∧
    (Scaler.run ⟨1, 2, 300, 10, 1, 5⟩ ⟨0⟩ 10
        ⟨.ok [⟨[(0, 3)]⟩], .ok 1, true, 10⟩).fetched = false := by
  constructor
  · norm_num
  · rw [run_backoff _ _ _ _ (by norm_num)]

/-- C2: a fetch result with zero windows, more than one window, or a single
empty window is insufficient data: `metric_value` returns `none`, the
orchestrator is neither read nor written (the lazy replica fetch does not
occur), and `last_scaling` is unchanged. -/
theorem insufficient_data_no_contact (c : Scaler) (st : ScalerState) (now : ℚ)
    (env : Env) (md : List Window)
    (hmd : env.metricData = Except.ok md)
    (hshape : md.length ≠ 1 ∨ ∃ w, md = [w] ∧ w.values = []) :
    metricValue md = none ∧
    (Scaler.run c st now env).reads = 0 ∧
    (Scaler.run c st now env).writes = [] ∧
    (Scaler.run c st now env).state = st := by
  have hv := metricValue_none_of_bad_shape md hshape
  refine ⟨hv, ?_⟩
  by_cases hgate : st.last_scaling + (c.backoff : ℚ) < now
  · unfold Scaler.run
    rw [if_pos hgate, hmd]
    simp [hv]
  · rw [run_backoff c st now env hgate]
    exact ⟨rfl, rfl, rfl⟩

/-- C2 witness: a fetch returning zero windows at an eligible time. -/
theorem insufficient_data_no_contact_witness :
    metricValue [] = none ∧
    (Scaler.run ⟨1, 2, 300, 10, 1, 5⟩ ⟨0⟩ 100 ⟨.ok [], .ok 3, true, 100⟩).reads = 0 ∧
    (Scaler.run ⟨1, 2, 300, 10, 1, 5⟩ ⟨0⟩ 100 ⟨.ok [], .ok 3, true, 100⟩).writes = [] ∧
    (Scaler.run ⟨1, 2, 300, 10, 1, 5⟩ ⟨0⟩ 100 ⟨.ok [], .ok 3, true, 100⟩).state = ⟨0⟩ :=
  insufficient_data_no_contact ⟨1, 2, 300, 10, 1, 5⟩ ⟨0⟩ 100
    ⟨.ok [], .ok 3, true, 100⟩ [] rfl (Or.inl (by decide))

/-- C3: when the averaged value is below `low_value` and the current replica
count is above `min_replicas`, the run invokes the replace-scale write with
exactly `current_replicas - 1`, which is never below `min_replicas`; when
already at or below the floor, no write occurs. -/
theorem scale_down_writes (c : Scaler) (st : ScalerState) (now : ℚ) (env : Env)
    (md : List Window) (v : ℚ) (r : ℤ)
    (hgate : st.last_scaling + (c.backoff : ℚ) < now)
    (hmd : env.metricData = Except.ok md)
    (hv : metricValue md = some v)
    (hlow : v < c.low_value)
    (hr : env.replicas = Except.ok r) :
    (c.min_replicas < r →
      (Scaler.run c st now env).writes = [r - 1] ∧ c.min_replicas ≤ r - 1) ∧
    (r ≤ c.min_replicas → (Scaler.run c st now env).writes = []) := by
  unfold Scaler.run Scaler.scale
  rw [if_pos hgate, hmd]
  simp only [hv]
  rw [if_pos hlow, hr]
  dsimp only
  constructor
  · intro hmin
    rw [if_pos hmin]
    exact ⟨by simp, by omega⟩
  · intro hmin
    rw [if_neg (not_lt.mpr hmin)]

/-- C3 witness: value 5 below low bound 10 with 2 replicas above floor 1
writes exactly 1 replica; value 5 with 1 replica at the floor writes
nothing. -/
theorem scale_down_writes_witness :
    ((1 : ℤ) < 2 →
      (Scaler.run ⟨10, 50, 300, 600, 1, 5⟩ ⟨0⟩ 1000
          ⟨.ok [⟨[(0, 5)]⟩], .ok 2, true, 1000⟩).writes = [1] ∧ (1 : ℤ) ≤ 1) ∧
    ((2 : ℤ) ≤ 1 →
      (Scaler.run ⟨10, 50, 300, 600, 1, 5⟩ ⟨0⟩ 1000
          ⟨.ok [⟨[(0, 5)]⟩], .ok 2, true, 1000⟩).writes = []) :=
  scale_down_writes ⟨10, 50, 300, 600, 1, 5⟩ ⟨0⟩ 1000
    ⟨.ok [⟨[(0, 5)]⟩], .ok 2, true, 1000⟩ [⟨[(0, 5)]⟩] 5 2
    (by norm_num) rfl (by norm_num [metricValue]) (by norm_num) rfl

/-- C4: when the averaged value is above `high_value` and the current replica
count is below `max_replicas`, the run invokes the replace-scale write with
exactly `current_replicas + 1`, which is never above `max_replicas`; when
already at or above the ceiling, no write occurs. -/
theorem scale_up_writes (c : Scaler) (st : ScalerState) (now : ℚ) (env : Env)
    (md : List Window) (v : ℚ) (r : ℤ)
    (hgate : st.last_scaling + (c.backoff : ℚ) < now)
    (hmd : env.metricData = Except.ok md)
    (hv : metricValue md = some v)
    (hlh : c.low_value ≤ c.high_value)
    (hhigh : c.high_value < v)
    (hr : env.replicas = Except.ok r) :
    (r < c.max_replicas →
      (Scaler.run c st now env).writes = [r + 1] ∧ r + 1 ≤ c.max_replicas) ∧
    (c.max_replicas ≤ r → (Scaler.run c st now env).writes = []) := by
  unfold Scaler.run Scaler.scale
  rw [if_pos hgate, hmd]
  simp only [hv]
  rw [if_neg (not_lt.mpr (by linarith)), if_pos hhigh, hr]
  dsimp only
  constructor
  · intro hmax
    rw [if_pos hmax]
    exact ⟨by simp, by omega⟩
  · intro hmax
    rw [if_neg (not_lt.mpr hmax)]

/-- C4 witness: value 60 above high bound 50 with 4 replicas below ceiling 5
writes exactly 5 replicas; with the ceiling already reached the second
conjunct is vacuous here. -/
theorem scale_up_writes_witness :
    ((4 : ℤ) < 5 →
      (Scaler.run ⟨10, 50, 300, 600, 1, 5⟩ ⟨0⟩ 1000
          ⟨.ok [⟨[(0, 60)]⟩], .ok 4, true, 1000⟩).writes = [5] ∧ (4 : ℤ) + 1 ≤ 5) ∧
    ((5 : ℤ) ≤ 4 →
      (Scaler.run ⟨10, 50, 300, 600, 1, 5⟩ ⟨0⟩ 1000
          ⟨.ok [⟨[(0, 60)]⟩], .ok 4, true, 1000⟩).writes = []) :=
  scale_up_writes ⟨10, 50, 300, 600, 1, 5⟩ ⟨0⟩ 1000
    ⟨.ok [⟨[(0, 60)]⟩], .ok 4, true, 1000⟩ [⟨[(0, 60)]⟩] 60 4
    (by norm_num) rfl (by norm_num [metricValue]) (by norm_num) (by norm_num) rfl

/-- C5: an averaged value strictly between the bounds holds regardless of
replica counts: no orchestrator write, no replica read, state unchanged. -/
theorem within_bounds_hold (c : Scaler) (st : ScalerState) (now : ℚ) (env : Env)
    (md : List Window) (v : ℚ)
    (hmd : env.metricData = Except.ok md)
    (hv : metricValue md = some v)
    (hlow : c.low_value < v) (hhigh : v < c.high_value) :
    (Scaler.run c st now env).reads = 0 ∧
    (Scaler.run c st now env).writes = [] ∧
    (Scaler.run c st now env).state = st := by
  by_cases hgate : st.last_scaling + (c.backoff : ℚ) < now
  · unfold Scaler.run
    rw [if_pos hgate, hmd]
    simp only [hv]
    rw [if_neg (not_lt.mpr (le_of_lt hlow)), if_neg (not_lt.mpr (le_of_lt hhigh))]
    exact ⟨rfl, rfl, rfl⟩
  · rw [run_backoff c st now env hgate]
    exact ⟨rfl, rfl, rfl⟩

/-- C5 witness: value 30 strictly between bounds 10 and 50. -/
theorem within_bounds_hold_witness :
    (Scaler.run ⟨10, 50, 300, 600, 1, 5⟩ ⟨0⟩ 1000
        ⟨.ok [⟨[(0, 30)]⟩], .ok 4, true, 1000⟩).reads = 0 ∧
    (Scaler.run ⟨10, 50, 300, 600, 1, 5⟩ ⟨0⟩ 1000
        ⟨.ok [⟨[(0, 30)]⟩], .ok 4, true, 1000⟩).writes = [] ∧
    (Scaler.run ⟨10, 50, 300, 600, 1, 5⟩ ⟨0⟩ 1000
        ⟨.ok [⟨[(0, 30)]⟩], .ok 4, true, 1000⟩).state = ⟨0⟩ :=
  within_bounds_hold ⟨10, 50, 300, 600, 1, 5⟩ ⟨0⟩ 1000
    ⟨.ok [⟨[(0, 30)]⟩], .ok 4, true, 1000⟩ [⟨[(0, 30)]⟩] 30
    rfl (by norm_num [metricValue]) (by norm_num) (by norm_num)

/-- C10: boundary equality is in-bounds — a value exactly equal to
`low_value` or exactly equal to `high_value` (with `low ≤ high`) takes no
action: no replica read, no write, state unchanged. -/
theorem boundary_equality_hold (c : Scaler) (st : ScalerState) (now : ℚ)
    (env : Env) (md : List Window) (v : ℚ)
    (hmd : env.metricData = Except.ok md)
    (hv : metricValue md = some v)
    (hlh : c.low_value ≤ c.high_value)
    (hb : v = c.low_value ∨ v = c.high_value) :
    (Scaler.run c st now env).reads = 0 ∧
    (Scaler.run c st now env).writes = [] ∧
    (Scaler.run c st now env).state = st := by
  by_cases hgate : st.last_scaling + (c.backoff : ℚ) < now
  · unfold Scaler.run
    rw [if_pos hgate, hmd]
    simp only [hv]
    rcases hb with rfl | rfl
    · rw [if_neg (lt_irrefl _), if_neg (not_lt.mpr hlh)]
      exact ⟨rfl, rfl, rfl⟩
    · rw [if_neg (not_lt.mpr hlh), if_neg (lt_irrefl _)]
      exact ⟨rfl, rfl, rfl⟩
  · rw [run_backoff c st now env hgate]
    exact ⟨rfl, rfl, rfl⟩

/-- C10 witness: value exactly equal to the low bound 10. -/
theorem boundary_equality_hold_witness :
    (Scaler.run ⟨10, 50, 300, 600, 1, 5⟩ ⟨0⟩ 1000
        ⟨.ok [⟨[(0, 10)]⟩], .ok 4, true, 1000⟩).reads = 0 ∧
    (Scaler.run ⟨10, 50, 300, 600, 1, 5⟩ ⟨0⟩ 1000
        ⟨.ok [⟨[(0, 10)]⟩], .ok 4, true, 1000⟩).writes = [] ∧
    (Scaler.run ⟨10, 50, 300, 600, 1, 5⟩ ⟨0⟩ 1000
        ⟨.ok [⟨[(0, 10)]⟩], .ok 4, true, 1000⟩).state = ⟨0⟩ :=
  boundary_equality_hold ⟨10, 50, 300, 600, 1, 5⟩ ⟨0⟩ 1000
    ⟨.ok [⟨[(0, 10)]⟩], .ok 4, true, 1000⟩ [⟨[(0, 10)]⟩] 10
    rfl (by norm_num [metricValue]) (by norm_num) (Or.inl rfl)

lemma run_outcome_shape (c : Scaler) (st : ScalerState) (now : ℚ) (env : Env) :
    (Scaler.run c st now env).state = st ∨
    (st.last_scaling + (c.backoff : ℚ) < now ∧ env.writeOk = true ∧
     (Scaler.run c st now env).raised = false ∧
     (Scaler.run c st now env).state = ⟨env.scaleTime⟩) := by
  by_cases hgate : st.last_scaling + (c.backoff : ℚ) < now
  · rcases env with ⟨emd, ereps, ewok, est⟩
    cases ewok
    · left
      unfold Scaler.run Scaler.scale
      rw [if_pos hgate]
      repeat' split
      all_goals first
        | rfl
        | simp_all
    · unfold Scaler.run Scaler.scale
      rw [if_pos hgate]
      repeat' split
      all_goals first
        | (left; rfl)
        | (right; exact ⟨hgate, rfl, rfl, rfl⟩)
  · left
    rw [run_backoff c st now env hgate]

lemma run_state_last_mono (c : Scaler) (st : ScalerState) (now : ℚ) (env : Env)
    (hb : 0 ≤ c.backoff) (hm : now ≤ env.scaleTime) :
    st.last_scaling ≤ (Scaler.run c st now env).state.last_scaling := by
  rcases run_outcome_shape c st now env with h | ⟨hgate, _, _, h⟩
  · rw [h]
  · rw [h]
    have hq : (0 : ℚ) ≤ (c.backoff : ℚ) := by exact_mod_cast hb
    show st.last_scaling ≤ env.scaleTime
    linarith

lemma run_state_change (c : Scaler) (st : ScalerState) (now : ℚ) (env : Env)
    (h : (Scaler.run c st now env).state ≠ st) :
    env.writeOk = true ∧ (Scaler.run c st now env).raised = false ∧
    (Scaler.run c st now env).state.last_scaling = env.scaleTime := by
  rcases run_outcome_shape c st now env with h2 | ⟨hgate, hwok, hraised, hstate⟩
  · exact absurd h2 h
  · exact ⟨hwok, hraised, by rw [hstate]⟩

lemma run_raised_state_eq (c : Scaler) (st : ScalerState) (now : ℚ) (env : Env)
    (h : (Scaler.run c st now env).raised = true) :
    (Scaler.run c st now env).state = st := by
  rcases run_outcome_shape c st now env with h2 | ⟨hgate, hwok, hraised, hstate⟩
  · exact h2
  · rw [h] at hraised
    exact absurd hraised (by simp)

/-- C6: `last_scaling` is monotonically non-decreasing — per tick, and
across any sequence of ticks (assuming a non-negative backoff and a clock
that does not run backwards within a tick) — and it changes only when the
replace-scale write succeeded without raising, in which case it becomes the
write's completion time; a tick that raises leaves the state unchanged. -/
theorem last_scaling_monotone :
    (∀ (c : Scaler) (st : ScalerState) (now : ℚ) (env : Env),
        0 ≤ c.backoff → now ≤ env.scaleTime →
        st.last_scaling ≤ (Scaler.run c st now env).state.last_scaling) ∧
    (∀ (c : Scaler) (st : ScalerState) (ticks : List (ℚ × Env)),
        0 ≤ c.backoff → (∀ t ∈ ticks, t.1 ≤ t.2.scaleTime) →
        st.last_scaling ≤ (runSeq c st ticks).last_scaling) ∧
    (∀ (c : Scaler) (st : ScalerState) (now : ℚ) (env : Env),
        (Scaler.run c st now env).state ≠ st →
        env.writeOk = true ∧ (Scaler.run c st now env).raised = false ∧
        (Scaler.run c st now env).state.last_scaling = env.scaleTime) ∧
    (∀ (c : Scaler) (st : ScalerState) (now : ℚ) (env : Env),
        (Scaler.run c st now env).raised = true →
        (Scaler.run c st now env).state = st) := by
  refine ⟨run_state_last_mono, ?_, run_state_change, run_raised_state_eq⟩
  intro c st ticks hb hticks
  induction ticks generalizing st with
  | nil => exact le_refl _
  | cons t rest ih =>
    have h1 := run_state_last_mono c st t.1 t.2 hb (hticks t (by simp))
    have h2 := ih ((Scaler.run c st t.1 t.2).state)
      (fun u hu => hticks u (by simp [hu]))
    exact le_trans h1 (h2)

/-- C6 witness: with backoff 10, a successful scale at clock 100 moves
`last_scaling` from 0 upward; the per-tick bound is instantiated
concretely. -/
theorem last_scaling_monotone_witness :
    (⟨0⟩ : ScalerState).last_scaling ≤
      (Scaler.run ⟨10, 50, 300, 10, 1, 5⟩ ⟨0⟩ 100
        ⟨.ok [⟨[(0, 5)]⟩], .ok 2, true, 100⟩).state.last_scaling :=
  last_scaling_monotone.1 ⟨10, 50, 300, 10, 1, 5⟩ ⟨0⟩ 100
    ⟨.ok [⟨[(0, 5)]⟩], .ok 2, true, 100⟩ (by norm_num) (by norm_num)

/-- C9: `metric_value` is total and the averaging division is only reached
with a non-empty single window: a `some` result comes exactly from a
single-window fetch with at least one sample, whose mean it is; any other
shape (zero or several windows, or a single empty window) yields `none`. -/
theorem metric_value_division_guard :
    (∀ (md : List Window) (v : ℚ), metricValue md = some v →
      ∃ w, md = [w] ∧ 0 < w.values.length ∧
        v = ((w.values.map (fun p => p.2)).sum) / (w.values.length : ℚ)) ∧
    (∀ md : List Window, md.length ≠ 1 → metricValue md = none) ∧
    (∀ w : Window, w.values = [] → metricValue [w] = none) := by
  refine ⟨?_, ?_, ?_⟩
  · intro md v h
    unfold metricValue at h
    by_cases h1 : md.length ≠ 1
    · rw [if_pos h1] at h
      exact absurd h (by simp)
    · rw [if_neg h1] at h
      push_neg at h1
      rcases md with _ | ⟨w, _ | ⟨w2, tl⟩⟩
      · simp at h1
      · dsimp only at h
        by_cases h2 : w.values.length = 0
        · rw [if_pos h2] at h
          exact absurd h (by simp)
        · rw [if_neg h2] at h
          refine ⟨w, rfl, Nat.pos_of_ne_zero h2, ?_⟩
          exact (Option.some_injective _ h).symm
      · simp at h1
  · intro md h
    unfold metricValue
    rw [if_pos h]
  · intro w h
    unfold metricValue
    simp [h]

/-- C9 witness: the two-sample window `[(0,4),(1,6)]` averages to 5, and the
theorem recovers the single non-empty window behind it. -/
theorem metric_value_division_guard_witness :
    ∃ w, [(⟨[(0, 4), (1, 6)]⟩ : Window)] = [w] ∧ 0 < w.values.length ∧
      (5 : ℚ) = ((w.values.map (fun p => p.2)).sum) / (w.values.length : ℚ) :=
  metric_value_division_guard.1 [⟨[(0, 4), (1, 6)]⟩] 5 (by norm_num [metricValue])

lemma run_scalers_foldl (ps : List (ℕ × ConfigItem)) (q : List Event)
    (interval t : ℚ) :
    ps.foldl (fun q p => runScalersStep q interval t p.1 p.2) q =
      q ++ ps.filterMap (fun p =>
        match p.2.construction with
        | .ok _ => some ⟨t + interval, p.1⟩
        | .error _ => none) := by
  induction ps generalizing q with
  | nil => simp
  | cons p ps ih =>
    rcases p with ⟨i, ctor, fr⟩
    cases ctor with
    | error e =>
      have hstep : runScalersStep q interval t i ⟨Except.error e, fr⟩ = q := rfl
      simp only [List.foldl_cons]
      rw [hstep, ih]
      simp
    | ok u =>
      have hstep : runScalersStep q interval t i ⟨Except.ok u, fr⟩ =
          q ++ [⟨t + interval, i⟩] := by
        cases fr <;> rfl
      simp only [List.foldl_cons]
      rw [hstep, ih]
      simp

/-- C7: `run_and_schedule` catches any failure of the scaler's run, and the
`finally` block re-arms the target for its next tick in every case — it
never propagates an exception; and `run_scalers` schedules exactly the
targets whose construction succeeded, skipping (only) the failing ones, so
one target's construction failure neither halts the process nor prevents
the siblings from being scheduled. -/
theorem failure_isolation :
    (∀ (step : Except Unit RunOutcome) (q : List Event) (interval t : ℚ)
        (idx : ℕ),
        run_and_schedule step q interval t idx =
          Except.ok (q ++ [⟨t + interval, idx⟩])) ∧
    (∀ (items : List ConfigItem) (interval t : ℚ),
        run_scalers items interval t =
          items.enum.filterMap (fun p =>
            match p.2.construction with
            | .ok _ => some ⟨t + interval, p.1⟩
            | .error _ => none)) := by
  constructor
  · intro step q interval t idx
    cases step <;> rfl
  · intro items interval t
    simpa [run_scalers] using run_scalers_foldl items.enum [] interval t

/-- C8 counterexample: two targets share the scheduler, target 0's run
takes 100 s, target 1's takes 0 s, both on a 60 s interval.  Target 0 is
due at time 0 and target 1 at time 1, but the single-threaded `sched`
queue executes target 1 only at clock 100, after target 0's slow run
completes — 99 s after its due tick, refuting "one target's slow
evaluation never blocks or delays the due ticks of the other targets". -/
theorem slow_target_delays_other :
    schedTrace (fun i => if i = 0 then 100 else 0) (fun _ => 60) 2 0
      [⟨0, 0⟩, ⟨1, 1⟩] = [(0, 0, 100), (1, 100, 100)] ∧ ¬ ((100 : ℚ) ≤ 1) := by
  have hpop1 : popMin [⟨0, 0⟩, ⟨1, 1⟩] = some (⟨0, 0⟩, [⟨1, 1⟩]) := by
    norm_num [popMin]
  have hstep1 : schedStep (fun i => if i = 0 then 100 else 0) (fun _ => 60) 0
      [⟨0, 0⟩, ⟨1, 1⟩] = some (100, [⟨1, 1⟩, ⟨160, 0⟩], (0, 0, 100)) := by
    norm_num [schedStep, hpop1, schedEnter]
  have hpop2 : popMin [⟨1, 1⟩, ⟨160, 0⟩] = some (⟨1, 1⟩, [⟨160, 0⟩]) := by
    norm_num [popMin]
  have hstep2 : schedStep (fun i => if i = 0 then 100 else 0) (fun _ => 60) 100
      [⟨1, 1⟩, ⟨160, 0⟩] = some (100, [⟨160, 0⟩, ⟨160, 1⟩], (1, 100, 100)) := by
    norm_num [schedStep, hpop2, schedEnter]
  constructor
  · simp only [schedTrace, hstep1, hstep2]
  · norm_num

/-- C8 (amended): after a target's run completes, its next event is entered
due exactly `interval` seconds after the completion time, and the scheduler
clock equals that completion time; but execution start is
`max(clock, due time)` — an event executes at its due time only when the
shared sequential scheduler is free, so a slow sibling delays it (see the
counterexample trace). -/
theorem rearm_exact_interval :
    (∀ (dur itv : ℕ → ℚ) (clock : ℚ) (q : List Event) (clock₂ : ℚ)
        (q₂ : List Event) (i : ℕ) (s comp : ℚ),
        schedStep dur itv clock q = some (clock₂, q₂, (i, s, comp)) →
        comp = s + dur i ∧ clock₂ = comp ∧ (⟨comp + itv i, i⟩ : Event) ∈ q₂) ∧
    (∀ (dur itv : ℕ → ℚ) (clock : ℚ) (q : List Event) (clock₂ : ℚ)
        (q₂ : List Event) (i : ℕ) (s comp : ℚ),
        schedStep dur itv clock q = some (clock₂, q₂, (i, s, comp)) →
        ∃ e rest, popMin q = some (e, rest) ∧ e.idx = i ∧
          s = (if clock ≤ e.time then e.time else clock)) := by
  constructor
  · intro dur itv clock q clock₂ q₂ i s comp h
    unfold schedStep at h
    cases hp : popMin q with
    | none => rw [hp] at h; simp at h
    | some pr =>
      rcases pr with ⟨e, rest⟩
      rw [hp] at h
      simp only [Option.some.injEq, Prod.mk.injEq] at h
      obtain ⟨hclock, hq, hidx, hs, hcomp⟩ := h
      subst hidx hs hcomp
      refine ⟨rfl, hclock.symm, ?_⟩
      rw [← hq]
      simp [schedEnter]
  · intro dur itv clock q clock₂ q₂ i s comp h
    unfold schedStep at h
    cases hp : popMin q with
    | none => rw [hp] at h; simp at h
    | some pr =>
      rcases pr with ⟨e, rest⟩
      rw [hp] at h
      simp only [Option.some.injEq, Prod.mk.injEq] at h
      obtain ⟨hclock, hq, hidx, hs, hcomp⟩ := h
      exact ⟨e, rest, rfl, hidx, hs.symm⟩

/-- C8 witness: a single idle target with zero run duration on a 60 s
interval is re-entered due exactly 60 s after its completion. -/
theorem rearm_exact_interval_witness :
    (0 : ℚ) = 0 + (fun _ : ℕ => (0 : ℚ)) 0 ∧ (0 : ℚ) = (0 : ℚ) ∧
      (⟨(0 : ℚ) + (fun _ : ℕ => (60 : ℚ)) 0, 0⟩ : Event) ∈ [(⟨60, 0⟩ : Event)] :=
  rearm_exact_interval.1 (fun _ => 0) (fun _ => 60) 0 [⟨0, 0⟩] 0 [⟨60, 0⟩] 0 0 0
    (by norm_num [schedStep, popMin, schedEnter])
